import Mathlib

/-!
Verification of the `yc_scraper` pipeline (Y Combinator job-board scraper).

Shallow embedding of the pieces of the code base needed by the claims:

* `yc_scraper/extractors/job_extractor.py`   (field coercion: `_parse_boolean`, `_parse_integer`)
* `yc_scraper/utils/data_cleaner.py`         (`DataCleaner`: text/url/email/list cleaning, dedup)
* `yc_scraper/models/search_params.py`       (`SearchParams`, enums, `to_url_params`, `from_url`)
* `yc_scraper/core/url_builder.py`           (`URLBuilder.build_search_url`, `is_yc_url`)
* `yc_scraper/core/scraper.py`               (`scrape_from_url`, per-company job denormalization)
* `yc_scraper/extractors/pagination_handler.py` (`scrape_with_infinite_scroll`)
* `yc_scraper/clients/firecrawl_client.py` / `gemini_client.py` (retry loops)

Python strings are modelled as `List Char` (`PyStr`); Python `None`/falsy handling is made
explicit (`Option`, emptiness tests).  Machine-independent behaviour only: the Firecrawl and
Gemini network gateways appear as abstract result sequences.
-/

set_option maxHeartbeats 1000000

/-- Python strings, modelled as lists of characters. -/
abbrev PyStr := List Char

/-- The whitespace characters stripped by Python's `str.strip()` /
matched by `\s` (ASCII range, as produced by this pipeline). -/
def isPySpace (c : Char) : Bool :=
  c = ' ' || c = '\t' || c = '\n' || c = '\r' || c = '\x0b' || c = '\x0c'

/-- Python `str.strip()`. -/
def pyStrip (s : PyStr) : PyStr :=
  ((s.dropWhile isPySpace).reverse.dropWhile isPySpace).reverse

/-- Python `str.lower()` (ASCII; the pipeline's tokens are ASCII). -/
def pyLower (s : PyStr) : PyStr := s.map Char.toLower

/-- Python `str.startswith(p)`. -/
def startsWith : PyStr → PyStr → Bool
  | _, [] => true
  | [], _ :: _ => false
  | c :: s, p :: ps => c = p && startsWith s ps

/-- One step of `re.sub(r'\s+', ' ', text)`: collapse whitespace runs to single spaces.
The flag records whether the previous character was whitespace. -/
def collapseWsAux : Bool → PyStr → PyStr
  | _, [] => []
  | prevSp, c :: rest =>
    if isPySpace c then
      if prevSp then collapseWsAux true rest
      else ' ' :: collapseWsAux true rest
    else c :: collapseWsAux false rest

/-- Python `re.sub(r'\s+', ' ', text)`. -/
def collapseWs (s : PyStr) : PyStr := collapseWsAux false s

/-- Python `str.title()` (ASCII): a letter is upper-cased when the previous
character is not a letter, lower-cased otherwise. -/
def pyTitleAux : Bool → PyStr → PyStr
  | _, [] => []
  | prevAlpha, c :: rest =>
    (if prevAlpha then c.toLower else c.toUpper) :: pyTitleAux c.isAlpha rest

/-- Python `str.title()`. -/
def pyTitle (s : PyStr) : PyStr := pyTitleAux false s

/-! ## Python values

LLM-extracted JSON fields arrive as dynamically typed Python values. -/

/-- A dynamically typed Python value, as handled by the extractors' coercion helpers. -/
inductive PyVal where
  | pyBool (b : Bool)
  | pyStr (s : PyStr)
  | pyInt (n : Int)
  | pyFloat (q : ℚ)
  | pyNone
  | pyList (l : List PyVal)

/-- Python truthiness `bool(value)` for the values above. -/
def PyVal.truthy : PyVal → Bool
  | .pyBool b => b
  | .pyStr s => !s.isEmpty
  | .pyInt n => decide (n ≠ 0)
  | .pyFloat q => decide (q ≠ 0)
  | .pyNone => false
  | .pyList l => !l.isEmpty

/-! ## `JobExtractor._parse_boolean` / `_parse_integer`
(`src/web-scraping/yc_scraper/extractors/job_extractor.py`, lines 198-221) -/

/-- `JobExtractor._parse_boolean`: a `bool` passes through; a string is compared
(lower-cased) against the five truthy tokens; any other value goes through `bool(value)`. -/
def JobExtractor.parse_boolean (v : PyVal) : Bool :=
  match v with
  | .pyBool b => b
  | .pyStr s =>
    (pyLower s) ∈ (["true".toList, "yes".toList, "1".toList, "on".toList, "enabled".toList])
  | v => v.truthy

/-- Digits-only string to a natural number, as Python `int()` on a digit string. -/
def digitsToNat (l : List Char) : Nat :=
  l.foldl (fun acc c => acc * 10 + (c.toNat - '0'.toNat)) 0

/-- `JobExtractor._parse_integer`: `int` passes through, `float` truncates toward zero,
a string is stripped to its digits (`re.sub(r'[^\d]', '', value)`, ASCII digits here),
with a `* 1000` multiplier when the original contains `k`/`K`; empty digits give `None`. -/
def JobExtractor.parse_integer (v : PyVal) : Option Int :=
  match v with
  | .pyInt n => some n
  | .pyFloat q => some (if 0 ≤ q then q.floor else q.ceil)
  | .pyStr s =>
    let digits := s.filter Char.isDigit
    if digits = [] then none
    else
      let base : Int := digitsToNat digits
      some (if (pyLower s).contains 'k' then base * 1000 else base)
  | _ => none

/-! ## `DataCleaner` (`src/mygentic/web_scraping/yc_scraper/utils/data_cleaner.py`) -/

/-- The placeholder tokens collapsed to absent by `_clean_text`
(`n/?a`, `null`, `none`, `not specified`, `tbd`, `-`; case-insensitive,
matched after stripping and whitespace collapsing). -/
def isPlaceholder (s : PyStr) : Bool :=
  (pyLower s) ∈ (["na".toList, "n/a".toList, "null".toList, "none".toList,
    "not specified".toList, "tbd".toList, "-".toList])

/-- `DataCleaner._clean_text`: strip, collapse whitespace runs, drop placeholder
tokens and empty results. -/
def DataCleaner.clean_text (s : PyStr) : Option PyStr :=
  if s = [] then none
  else
    let t := collapseWs (pyStrip s)
    if isPlaceholder t then none
    else if t = [] then none
    else some t

/-- `DataCleaner._clean_url`: strip; require an `http://`/`https://` scheme,
auto-prepending `https:` for `//...` and `https://` for `www....`; then require
length `≥ 10` and no space. -/
def DataCleaner.clean_url (s : PyStr) : Option PyStr :=
  if s = [] then none
  else
    let u := pyStrip s
    let fixed : Option PyStr :=
      if startsWith u "http://".toList || startsWith u "https://".toList then some u
      else if startsWith u "//".toList then some ("https:".toList ++ u)
      else if startsWith u "www.".toList then some ("https://".toList ++ u)
      else none
    match fixed with
    | none => none
    | some v => if v.length < 10 || v.contains ' ' then none else some v

/-- Character class `[a-zA-Z0-9._%+-]` (local part of `_clean_email`'s regex). -/
def isEmailLocalChar (c : Char) : Bool :=
  c.isAlpha || c.isDigit || c = '.' || c = '_' || c = '%' || c = '+' || c = '-'

/-- Character class `[a-zA-Z0-9.-]` (domain part of `_clean_email`'s regex). -/
def isEmailDomainChar (c : Char) : Bool :=
  c.isAlpha || c.isDigit || c = '.' || c = '-'

/-- Match of `[a-zA-Z0-9.-]+\.[a-zA-Z]{2,}$` against the domain: all characters in
the domain class, and the maximal alphabetic suffix has length `≥ 2`, is preceded by
a literal `.`, and the part before that dot is non-empty. -/
def emailDomainOk (d : PyStr) : Bool :=
  d.all isEmailDomainChar &&
    (let r := d.reverse
     let tld := r.takeWhile Char.isAlpha
     decide (2 ≤ tld.length) &&
       (match r.dropWhile Char.isAlpha with
        | '.' :: rest => !rest.isEmpty
        | _ => false))

/-- `DataCleaner._clean_email`: strip, lower-case, then match
`^[a-zA-Z0-9._%+-]+@[a-zA-Z0-9.-]+\.[a-zA-Z]{2,}$`. -/
def DataCleaner.clean_email (s : PyStr) : Option PyStr :=
  if s = [] then none
  else
    let e := pyLower (pyStrip s)
    match e.splitOn '@' with
    | [locPart, domPart] =>
      if !locPart.isEmpty && locPart.all isEmailLocalChar && emailDomainOk domPart
      then some e else none
    | _ => none

/-- Loop of `DataCleaner._clean_tags_list`: skip falsy entries, strip, skip entries
shorter than 2 characters, title-case, and deduplicate on the lower-cased form. -/
def DataCleaner.clean_tags_go : List PyStr → List PyStr → List PyStr
  | [], _ => []
  | t :: rest, seen =>
    if t = [] then DataCleaner.clean_tags_go rest seen
    else
      let t1 := pyStrip t
      if t1.length < 2 then DataCleaner.clean_tags_go rest seen
      else
        let t2 := pyTitle t1
        if pyLower t2 ∈ seen then DataCleaner.clean_tags_go rest seen
        else t2 :: DataCleaner.clean_tags_go rest (pyLower t2 :: seen)

/-- `DataCleaner._clean_tags_list` (final `[:10]` truncation included). -/
def DataCleaner.clean_tags_list (tags : List PyStr) : List PyStr :=
  (DataCleaner.clean_tags_go tags []).take 10

/-- The `skill_mapping` table of `DataCleaner._normalize_skill`. -/
def skillMapping : List (PyStr × PyStr) :=
  [("javascript".toList, "JavaScript".toList),
   ("typescript".toList, "TypeScript".toList),
   ("python".toList, "Python".toList),
   ("java".toList, "Java".toList),
   ("c++".toList, "C++".toList),
   ("c#".toList, "C#".toList),
   ("react".toList, "React".toList),
   ("vue".toList, "Vue.js".toList),
   ("angular".toList, "Angular".toList),
   ("node".toList, "Node.js".toList),
   ("nodejs".toList, "Node.js".toList),
   ("aws".toList, "AWS".toList),
   ("gcp".toList, "Google Cloud".toList),
   ("azure".toList, "Azure".toList),
   ("docker".toList, "Docker".toList),
   ("kubernetes".toList, "Kubernetes".toList),
   ("sql".toList, "SQL".toList),
   ("postgresql".toList, "PostgreSQL".toList),
   ("mysql".toList, "MySQL".toList),
   ("mongodb".toList, "MongoDB".toList),
   ("redis".toList, "Redis".toList),
   ("git".toList, "Git".toList),
   ("github".toList, "GitHub".toList),
   ("gitlab".toList, "GitLab".toList)]

/-- `DataCleaner._normalize_skill`: look the lower-cased skill up in the mapping,
falling back to the skill unchanged. -/
def DataCleaner.normalize_skill (s : PyStr) : PyStr :=
  match skillMapping.lookup (pyLower s) with
  | some v => v
  | none => s

/-- Loop of `DataCleaner._clean_skills_list`: skip falsy entries, strip, skip entries
shorter than 2 characters, normalize known technologies, deduplicate on the
lower-cased form. -/
def DataCleaner.clean_skills_go : List PyStr → List PyStr → List PyStr
  | [], _ => []
  | t :: rest, seen =>
    if t = [] then DataCleaner.clean_skills_go rest seen
    else
      let t1 := pyStrip t
      if t1.length < 2 then DataCleaner.clean_skills_go rest seen
      else
        let t2 := DataCleaner.normalize_skill t1
        if pyLower t2 ∈ seen then DataCleaner.clean_skills_go rest seen
        else t2 :: DataCleaner.clean_skills_go rest (pyLower t2 :: seen)

/-- `DataCleaner._clean_skills_list` (final `[:20]` truncation included). -/
def DataCleaner.clean_skills_list (skills : List PyStr) : List PyStr :=
  (DataCleaner.clean_skills_go skills []).take 20

/-! ## `Company` / `Job` records (`models/company.py`, `models/job.py`)

`Optional[str]` fields are `Option PyStr` (Python `None` is `none`; an empty
string is `some []`, which is falsy and is skipped by the cleaner's
`if data.get(field):` guards).  `posted_date` (a `datetime`) is carried as an
abstract integer timestamp: the cleaner never touches it.  Floats
(`equity_min/max`) are carried as rationals. -/

structure Company where
  name : PyStr
  description : Option PyStr := none
  url : Option PyStr := none
  yc_profile_url : Option PyStr := none
  job_count : Int := 0
  jobs_url : Option PyStr := none
  industry : Option PyStr := none
  location : Option PyStr := none
  team_size : Option PyStr := none
  batch : Option PyStr := none
  logo_url : Option PyStr := none
  founded_year : Option Int := none
  tags : List PyStr := []
deriving DecidableEq, Repr

structure Job where
  title : PyStr
  company_name : PyStr
  description : Option PyStr := none
  location : Option PyStr := none
  remote_ok : Bool := false
  location_type : Option PyStr := none
  salary_min : Option Int := none
  salary_max : Option Int := none
  salary_currency : Option PyStr := none
  equity_min : Option ℚ := none
  equity_max : Option ℚ := none
  job_type : Option PyStr := none
  experience_level : Option PyStr := none
  department : Option PyStr := none
  skills_required : List PyStr := []
  education_required : Option PyStr := none
  years_experience : Option Int := none
  application_url : Option PyStr := none
  application_email : Option PyStr := none
  posted_date : Option Int := none
  company_url : Option PyStr := none
  company_description : Option PyStr := none
  company_industry : Option PyStr := none
  company_size : Option PyStr := none
  visa_sponsorship : Bool := false
deriving DecidableEq, Repr

/-- The cleaner's per-field pattern for optional text:
`if data.get(field): data[field] = cleaned_text if cleaned_text else None`
(a `None` or empty value is left untouched). -/
def DataCleaner.clean_opt_text : Option PyStr → Option PyStr
  | none => none
  | some s => if s = [] then some s else DataCleaner.clean_text s

/-- The cleaner's per-field pattern for optional URLs (same falsy guard). -/
def DataCleaner.clean_opt_url : Option PyStr → Option PyStr
  | none => none
  | some s => if s = [] then some s else DataCleaner.clean_url s

/-- The cleaner's per-field pattern for optional emails (same falsy guard). -/
def DataCleaner.clean_opt_email : Option PyStr → Option PyStr
  | none => none
  | some s => if s = [] then some s else DataCleaner.clean_email s

/-- `DataCleaner._clean_company`: rebuild the record from cleaned fields, or reject
(`None`) when the name does not survive text cleaning.  `job_count` is clamped to
`max 0`; tags go through `_clean_tags_list`.  (The pydantic `HttpUrl` re-validation
of `url` on reconstruction is not modelled: `_clean_url` already enforces a scheme.) -/
def DataCleaner.clean_company (c : Company) : Option Company :=
  if c.name = [] then none
  else
    match DataCleaner.clean_text c.name with
    | none => none
    | some nm =>
      some { c with
        name := nm
        description := DataCleaner.clean_opt_text c.description
        industry := DataCleaner.clean_opt_text c.industry
        location := DataCleaner.clean_opt_text c.location
        team_size := DataCleaner.clean_opt_text c.team_size
        batch := DataCleaner.clean_opt_text c.batch
        url := DataCleaner.clean_opt_url c.url
        yc_profile_url := DataCleaner.clean_opt_url c.yc_profile_url
        jobs_url := DataCleaner.clean_opt_url c.jobs_url
        logo_url := DataCleaner.clean_opt_url c.logo_url
        job_count := max 0 c.job_count
        tags := DataCleaner.clean_tags_list c.tags }

/-- `DataCleaner._clean_job`: rebuild the record from cleaned fields, or reject when
title or company name does not survive text cleaning.  Non-negative integers are
kept, negative ones dropped; equity must lie in `[0, 100]`; skills go through
`_clean_skills_list`. -/
def DataCleaner.clean_job (j : Job) : Option Job :=
  if j.title = [] || j.company_name = [] then none
  else
    match DataCleaner.clean_text j.title, DataCleaner.clean_text j.company_name with
    | some ti, some co =>
      some { j with
        title := ti
        company_name := co
        description := DataCleaner.clean_opt_text j.description
        location := DataCleaner.clean_opt_text j.location
        location_type := DataCleaner.clean_opt_text j.location_type
        salary_currency := DataCleaner.clean_opt_text j.salary_currency
        job_type := DataCleaner.clean_opt_text j.job_type
        experience_level := DataCleaner.clean_opt_text j.experience_level
        department := DataCleaner.clean_opt_text j.department
        education_required := DataCleaner.clean_opt_text j.education_required
        company_description := DataCleaner.clean_opt_text j.company_description
        company_industry := DataCleaner.clean_opt_text j.company_industry
        company_size := DataCleaner.clean_opt_text j.company_size
        application_url := DataCleaner.clean_opt_url j.application_url
        company_url := DataCleaner.clean_opt_url j.company_url
        application_email := DataCleaner.clean_opt_email j.application_email
        salary_min := j.salary_min.bind (fun v => if 0 ≤ v then some v else none)
        salary_max := j.salary_max.bind (fun v => if 0 ≤ v then some v else none)
        years_experience := j.years_experience.bind (fun v => if 0 ≤ v then some v else none)
        equity_min := j.equity_min.bind (fun v => if 0 ≤ v ∧ v ≤ 100 then some v else none)
        equity_max := j.equity_max.bind (fun v => if 0 ≤ v ∧ v ≤ 100 then some v else none)
        skills_required := DataCleaner.clean_skills_list j.skills_required }
    | _, _ => none

/-- Dedup key of `clean_companies`: `company.name.lower().strip()`. -/
def companyNameKey (c : Company) : PyStr := pyStrip (pyLower c.name)

/-- Loop of `DataCleaner.clean_companies`: skip a company whose name key was seen or
whose (truthy) `yc_profile_url` was seen; otherwise clean it and, on success, emit it
and record its name key and its cleaned (truthy) profile URL. -/
def DataCleaner.clean_companies_go :
    List Company → List PyStr → List PyStr → List Company
  | [], _, _ => []
  | c :: rest, seenNames, seenUrls =>
    if companyNameKey c ∈ seenNames then
      DataCleaner.clean_companies_go rest seenNames seenUrls
    else if (match c.yc_profile_url with
             | some u => !u.isEmpty && u ∈ seenUrls
             | none => false) then
      DataCleaner.clean_companies_go rest seenNames seenUrls
    else
      match DataCleaner.clean_company c with
      | some cc =>
        cc :: DataCleaner.clean_companies_go rest (companyNameKey c :: seenNames)
          (match cc.yc_profile_url with
           | some u => if u.isEmpty then seenUrls else u :: seenUrls
           | none => seenUrls)
      | none => DataCleaner.clean_companies_go rest seenNames seenUrls

/-- `DataCleaner.clean_companies`. -/
def DataCleaner.clean_companies (cs : List Company) : List Company :=
  DataCleaner.clean_companies_go cs [] []

/-- Dedup key of `clean_jobs`:
`f"{job.company_name.lower().strip()}:{job.title.lower().strip()}"`. -/
def jobKey (j : Job) : PyStr :=
  pyStrip (pyLower j.company_name) ++ [':'] ++ pyStrip (pyLower j.title)

/-- Loop of `DataCleaner.clean_jobs`. -/
def DataCleaner.clean_jobs_go : List Job → List PyStr → List Job
  | [], _ => []
  | j :: rest, seen =>
    if jobKey j ∈ seen then DataCleaner.clean_jobs_go rest seen
    else
      match DataCleaner.clean_job j with
      | some cj => cj :: DataCleaner.clean_jobs_go rest (jobKey j :: seen)
      | none => DataCleaner.clean_jobs_go rest seen

/-- `DataCleaner.clean_jobs`. -/
def DataCleaner.clean_jobs (js : List Job) : List Job :=
  DataCleaner.clean_jobs_go js []

/-! ## Per-company job processing (`core/scraper.py`, `_scrape_jobs_for_companies`)

The loop body assigns each extracted job's absent context fields in place:
`if not job.company_url: job.company_url = company.url`, and likewise for
description, industry and size.  Under pydantic v2, `Company.url` is
`Optional[HttpUrl]`: `some u` stands for a `pydantic_core.Url` object (always
truthy) whose string form is `u`, and such an object is *not* a valid value for
the `Optional[str]` field `Job.company_url` — with `validate_assignment = True`
the assignment raises a `ValidationError`, the per-company `except`
(`core/scraper.py` line 261) catches it, and the whole company's job batch is
dropped.  When `company.url` is `None`, assigning `None` succeeds (overwriting an
empty-string `company_url` with `None`).  The other three context fields are
plain `Optional[str]` on both sides, so those assignments succeed; assignment
validation applies the model's `str_strip_whitespace`, so an assigned string is
stored stripped. -/

/-- Python truthiness of an `Optional[str]` field (`None` and `""` are falsy). -/
def truthyOptStr : Option PyStr → Bool
  | none => false
  | some s => !s.isEmpty

/-- One job's pass through the four denormalization assignments of
`_scrape_jobs_for_companies` (`core/scraper.py`, lines 246-254).  `none` models
the `ValidationError` raised by `job.company_url = company.url` when the company
holds a URL object; otherwise the job is returned with its absent context fields
filled (strings stripped by assignment validation). -/
def YCJobScraper.add_company_context (company : Company) (j : Job) : Option Job :=
  if truthyOptStr j.company_url = false ∧ company.url ≠ none then none
  else
    some { j with
      company_url := if truthyOptStr j.company_url then j.company_url else none
      company_description :=
        if truthyOptStr j.company_description then j.company_description
        else company.description.map pyStrip
      company_industry :=
        if truthyOptStr j.company_industry then j.company_industry
        else company.industry.map pyStrip
      company_size :=
        if truthyOptStr j.company_size then j.company_size
        else company.team_size.map pyStrip }

/-- The per-company denormalization loop over the extracted jobs: the first
`ValidationError` aborts the loop (`none`). -/
def YCJobScraper.denormalize_jobs (company : Company) : List Job → Option (List Job)
  | [] => some []
  | j :: rest =>
    match YCJobScraper.add_company_context company j with
    | none => none
    | some jd => (YCJobScraper.denormalize_jobs company rest).map (fun js => jd :: js)

/-- The jobs one company contributes to `all_jobs` in
`_scrape_jobs_for_companies`: its denormalized jobs, or none at all when the
batch raised and the per-company handler moved on (`except` at line 261). -/
def YCJobScraper.company_jobs_contributed (company : Company) (jobs : List Job) :
    List Job :=
  match YCJobScraper.denormalize_jobs company jobs with
  | some js => js
  | none => []

/-! ## `SearchParams` (`models/search_params.py`) and `URLBuilder` (`core/url_builder.py`)

URLs are modelled structurally (`urllib.parse` is the standard library, external to
this repository): `urlencode`/`parse_qs` form an inverse pair on query values
(`quote_plus`/`unquote_plus`), so the query string is carried as the ordered list of
key/value pairs; the one behaviour of `parse_qs` that is visible to `from_url` —
blank values are dropped (`keep_blank_values` defaults to `False`) — is modelled in
the lookup. -/

inductive JobType where
  | fulltime | parttime | internship | contract | any
deriving DecidableEq, Repr

def JobType.val : JobType → PyStr
  | .fulltime => "fulltime".toList
  | .parttime => "parttime".toList
  | .internship => "internship".toList
  | .contract => "contract".toList
  | .any => "any".toList

def JobType.ofVal (s : PyStr) : Option JobType :=
  if s = "fulltime".toList then some .fulltime
  else if s = "parttime".toList then some .parttime
  else if s = "internship".toList then some .internship
  else if s = "contract".toList then some .contract
  else if s = "any".toList then some .any
  else none

inductive Role where
  | engineering | design | product | sales | marketing | operations
  | finance | legal | science | any
deriving DecidableEq, Repr

def Role.val : Role → PyStr
  | .engineering => "engineering".toList
  | .design => "design".toList
  | .product => "product".toList
  | .sales => "sales".toList
  | .marketing => "marketing".toList
  | .operations => "operations".toList
  | .finance => "finance".toList
  | .legal => "legal".toList
  | .science => "science".toList
  | .any => "any".toList

def Role.ofVal (s : PyStr) : Option Role :=
  if s = "engineering".toList then some .engineering
  else if s = "design".toList then some .design
  else if s = "product".toList then some .product
  else if s = "sales".toList then some .sales
  else if s = "marketing".toList then some .marketing
  else if s = "operations".toList then some .operations
  else if s = "finance".toList then some .finance
  else if s = "legal".toList then some .legal
  else if s = "science".toList then some .science
  else if s = "any".toList then some .any
  else none

inductive SortBy where
  | created_desc | created_asc | company_name | industry
deriving DecidableEq, Repr

def SortBy.val : SortBy → PyStr
  | .created_desc => "created_desc".toList
  | .created_asc => "created_asc".toList
  | .company_name => "company_name".toList
  | .industry => "industry".toList

def SortBy.ofVal (s : PyStr) : Option SortBy :=
  if s = "created_desc".toList then some .created_desc
  else if s = "created_asc".toList then some .created_asc
  else if s = "company_name".toList then some .company_name
  else if s = "industry".toList then some .industry
  else none

inductive Layout where
  | list_compact | list_detailed | grid
deriving DecidableEq, Repr

def Layout.val : Layout → PyStr
  | .list_compact => "list-compact".toList
  | .list_detailed => "list-detailed".toList
  | .grid => "grid".toList

def Layout.ofVal (s : PyStr) : Option Layout :=
  if s = "list-compact".toList then some .list_compact
  else if s = "list-detailed".toList then some .list_detailed
  else if s = "grid".toList then some .grid
  else none

inductive YesNoAny where
  | yes | no | any
deriving DecidableEq, Repr

def YesNoAny.val : YesNoAny → PyStr
  | .yes => "yes".toList
  | .no => "no".toList
  | .any => "any".toList

def YesNoAny.ofVal (s : PyStr) : Option YesNoAny :=
  if s = "yes".toList then some .yes
  else if s = "no".toList then some .no
  else if s = "any".toList then some .any
  else none

/-- `SearchParams` (pydantic model; `industry`, `interview_process`, `tab` are free
text with default `"any"`, `location` / `company_size` optional free text). -/
structure SearchParams where
  demographic : YesNoAny := .any
  has_equity : YesNoAny := .any
  has_salary : YesNoAny := .any
  industry : PyStr := "any".toList
  interview_process : PyStr := "any".toList
  job_type : JobType := .fulltime
  layout : Layout := .list_compact
  role : Role := .any
  sort_by : SortBy := .created_desc
  tab : PyStr := "any".toList
  us_visa_not_required : YesNoAny := .any
  location : Option PyStr := none
  company_size : Option PyStr := none
deriving DecidableEq, Repr

/-- `SearchParams.to_url_params`: the ordered dict of query parameters; `location` /
`companySize` are appended only when truthy. -/
def SearchParams.to_url_params (p : SearchParams) : List (PyStr × PyStr) :=
  [("demographic".toList, p.demographic.val),
   ("hasEquity".toList, p.has_equity.val),
   ("hasSalary".toList, p.has_salary.val),
   ("industry".toList, p.industry),
   ("interviewProcess".toList, p.interview_process),
   ("jobType".toList, p.job_type.val),
   ("layout".toList, p.layout.val),
   ("role".toList, p.role.val),
   ("sortBy".toList, p.sort_by.val),
   ("tab".toList, p.tab),
   ("usVisaNotRequired".toList, p.us_visa_not_required.val)]
  ++ (match p.location with
      | some l => if l.isEmpty then [] else [("location".toList, l)]
      | none => [])
  ++ (match p.company_size with
      | some cs => if cs.isEmpty then [] else [("companySize".toList, cs)]
      | none => [])

/-- A parsed URL, as produced by `urllib.parse.urlparse` plus `parse_qs` on the
query string (see the section comment). -/
structure Url where
  scheme : PyStr
  host : PyStr
  path : PyStr
  query : List (PyStr × PyStr)
deriving DecidableEq, Repr

/-- `parse_qs(...)[key][0]` as used by `SearchParams.from_url`: the first value for
`key`, with blank values dropped (`keep_blank_values=False`), `none` when the key is
then absent. -/
def parseQsFirst (q : List (PyStr × PyStr)) (key : PyStr) : Option PyStr :=
  ((q.filter (fun kv => kv.1 = key && !kv.2.isEmpty)).head?).map (fun kv => kv.2)

/-- Helper for `from_url`'s enum-typed fields: an absent key keeps the pydantic
default, a present value must parse to an enum member (otherwise pydantic raises a
`ValidationError`, surfaced here as `none`). -/
def fieldFrom {α : Type} (parse : PyStr → Option α) (dflt : α) :
    Option PyStr → Option α
  | none => some dflt
  | some v => parse v

/-- `SearchParams.from_url`: rebuild a `SearchParams` from the query parameters of a
URL; `none` models the `ValidationError` raised on an unlisted enum token. -/
def SearchParams.from_url (u : Url) : Option SearchParams := do
  let demographic ← fieldFrom YesNoAny.ofVal .any (parseQsFirst u.query "demographic".toList)
  let has_equity ← fieldFrom YesNoAny.ofVal .any (parseQsFirst u.query "hasEquity".toList)
  let has_salary ← fieldFrom YesNoAny.ofVal .any (parseQsFirst u.query "hasSalary".toList)
  let industry := (parseQsFirst u.query "industry".toList).getD "any".toList
  let interview_process :=
    (parseQsFirst u.query "interviewProcess".toList).getD "any".toList
  let job_type ← fieldFrom JobType.ofVal .fulltime (parseQsFirst u.query "jobType".toList)
  let layout ← fieldFrom Layout.ofVal .list_compact (parseQsFirst u.query "layout".toList)
  let role ← fieldFrom Role.ofVal .any (parseQsFirst u.query "role".toList)
  let sort_by ← fieldFrom SortBy.ofVal .created_desc (parseQsFirst u.query "sortBy".toList)
  let tab := (parseQsFirst u.query "tab".toList).getD "any".toList
  let us_visa_not_required ←
    fieldFrom YesNoAny.ofVal .any (parseQsFirst u.query "usVisaNotRequired".toList)
  let location := parseQsFirst u.query "location".toList
  let company_size := parseQsFirst u.query "companySize".toList
  pure { demographic, has_equity, has_salary, industry, interview_process, job_type,
         layout, role, sort_by, tab, us_visa_not_required, location, company_size }

/-- `URLBuilder.BASE_URL = "https://www.workatastartup.com/companies"`, followed by
`?` and `urlencode(params)`. -/
def URLBuilder.build_search_url (p : SearchParams) : Url :=
  { scheme := "https".toList
    host := "www.workatastartup.com".toList
    path := "/companies".toList
    query := p.to_url_params }

/-- `URLBuilder.is_yc_url`: the lower-cased netloc must be
`www.workatastartup.com` or `workatastartup.com`. -/
def URLBuilder.is_yc_url (u : Url) : Bool :=
  pyLower u.host ∈ (["www.workatastartup.com".toList, "workatastartup.com".toList])

/-- Outcome of `YCJobScraper.scrape_from_url` (`core/scraper.py`, lines 124-150):
either the parsed params are handed to `scrape_search`, or the parse failure is
caught and `([], [])` is returned without any fetching. -/
inductive ScrapeOutcome where
  | delegated (p : SearchParams)
  | empty
deriving DecidableEq, Repr

/-- `YCJobScraper.scrape_from_url`: parse `SearchParams` out of the URL and delegate
to `scrape_search`; on a parse error, return empty lists.  No host check occurs. -/
def YCJobScraper.scrape_from_url (u : Url) : ScrapeOutcome :=
  match SearchParams.from_url u with
  | some p => .delegated p
  | none => .empty

/-! ## Scroll controller (`extractors/pagination_handler.py`)

The Firecrawl gateway is abstracted as a sequence `fetch : Nat → PyStr` of markdown
contents: `fetch 0` is the initial `scrape_page` result, `fetch i` (for `i ≥ 1`) the
result of the `i`-th `scrape_with_scroll` call.  The other result fields are never
read by the loop.  `no_change_count` takes the values `0, 0.5, 1, 1.5, ...` (the
fractional `+= 0.5` increment), so it is carried in half-units (`ncc2 = 2 ×
no_change_count`), which is exact for these float values. -/

/-- Python `str.count(sub)` for a non-empty `sub`: non-overlapping occurrences. -/
def countOccs (pat : PyStr) (s : PyStr) : Nat :=
  match s with
  | [] => 0
  | c :: rest =>
    if pat ≠ [] && startsWith (c :: rest) pat then
      1 + countOccs pat ((c :: rest).drop pat.length)
    else
      countOccs pat rest
termination_by s.length
decreasing_by
  · rename_i h
    simp only [List.length_drop, List.length_cons]
    have : pat.length ≠ 0 := by
      simp only [Bool.and_eq_true, ne_eq, decide_eq_true_eq] at h
      simpa [List.length_eq_zero] using h.1
    omega
  · simp

/-- The fixed job/company indicator vocabulary of `_has_significant_new_content`. -/
def indicatorWords : List PyStr :=
  ["job".toList, "position".toList, "role".toList, "hiring".toList, "engineer".toList,
   "developer".toList, "manager".toList, "designer".toList, "analyst".toList,
   "specialist".toList, "coordinator".toList,
   "company".toList, "startup".toList, "founded".toList, "team size".toList,
   "batch".toList, "industry".toList]

/-- `PaginationHandler._has_significant_new_content` (lines 128-175): the suffix of
the new content beyond the old length must exist, reach `min_threshold` characters,
and contain at least 3 indicator occurrences (summed over the vocabulary). -/
def PaginationHandler.has_significant_new_content
    (old_content new_content : PyStr) (min_threshold : Nat) : Bool :=
  if new_content.length ≤ old_content.length then false
  else
    let newPart := new_content.drop old_content.length
    if newPart.length < min_threshold then false
    else
      let lowered := pyLower newPart
      3 ≤ (indicatorWords.map (fun w => countOccs w lowered)).sum

/-- One scroll iteration's first phase (scroll number `i`, counter in half-units):
`some (lastContent, ncc2)` to continue, `none` for the `no_change_count >= 2`
early `break` on a semantic-check iteration. -/
def PaginationHandler.scroll_phase1 (N minThresh : Nat) (i : Nat) (inc : Int)
    (lastContent current : PyStr) (ncc2 : Nat) : Option (PyStr × Nat) :=
  if i % N = 0 then
    -- detailed content comparison every `content_check_interval` scrolls
    if PaginationHandler.has_significant_new_content lastContent current minThresh then
      some (current, 0)
    else if 4 ≤ ncc2 + 2 then none
    else some (lastContent, ncc2 + 2)
  else
    -- simple length-based check for other scrolls
    some (lastContent,
      if (minThresh : Int) < inc then 0
      else if inc < 10 then ncc2 + 1
      else ncc2)

/-- The scroll loop of `scrape_with_infinite_scroll` (lines 63-119).  Returns the
number of iterations executed and the markdown of the last fetch performed. -/
def PaginationHandler.scroll_go (fetch : Nat → PyStr) (N minThresh : Nat) :
    Nat → Nat → PyStr → Nat → PyStr → Nat × PyStr
  | _, 0, _, _, res => (0, res)
  | i, fuel + 1, lastContent, ncc2, _ =>
    let current := fetch i
    let inc : Int := (current.length : Int) - (lastContent.length : Int)
    match PaginationHandler.scroll_phase1 N minThresh i inc lastContent current ncc2 with
    | none => (1, current)
    | some (lc, n2) =>
      -- `if length_increase < 10 and scroll_num > 5`: low growth late in the run
      if inc < 10 && 5 < i then
        if 6 ≤ n2 + 2 then (1, current)
        else
          let next := PaginationHandler.scroll_go fetch N minThresh (i + 1) fuel lc
            (n2 + 2) current
          (next.1 + 1, next.2)
      else
        let next := PaginationHandler.scroll_go fetch N minThresh (i + 1) fuel lc n2
          current
        (next.1 + 1, next.2)

/-- `PaginationHandler.scrape_with_infinite_scroll` (lines 46-126): initial fetch,
immediate return on empty content, otherwise up to `max_scrolls` monitored scroll
iterations.  Result: `(iterations executed, final markdown returned)`. -/
def PaginationHandler.scrape_with_infinite_scroll (fetch : Nat → PyStr)
    (max_scrolls content_check_interval min_new_content_threshold : Nat) :
    Nat × PyStr :=
  let initial := fetch 0
  if initial.length = 0 then (0, initial)
  else
    PaginationHandler.scroll_go fetch content_check_interval min_new_content_threshold
      1 max_scrolls initial 0 initial

/-! ## Retry wrapper (`clients/firecrawl_client.py` lines 97-182,
`clients/gemini_client.py` lines 244-263)

Both retry loops have the same shape:
`for attempt in range(max_retries): try op; on failure record last_error;
 if attempt < max_retries - 1: sleep(base_delay * (attempt + 1))`,
then `raise` carrying the last error.  The attempt outcomes are abstracted as a
sequence `op : Nat → Except E A` (an `Except.error` covers both a raised exception
and a logically failed result such as `success: false`).  The trace records the
result, the number of operation invocations, and the list of sleep durations. -/

structure RetryTrace (E A : Type) where
  result : Except (Option E) A
  calls : Nat
  sleeps : List ℚ
deriving Repr

/-- The retry loop from attempt index `attempt` on, with the accumulated
`last_error`. -/
def retryFrom {E A : Type} (op : Nat → Except E A) (max_retries : Nat)
    (base_delay : ℚ) (attempt : Nat) (lastErr : Option E) : RetryTrace E A :=
  if _h : attempt < max_retries then
    match op attempt with
    | .ok a => { result := .ok a, calls := 1, sleeps := [] }
    | .error e =>
      let rest := retryFrom op max_retries base_delay (attempt + 1) (some e)
      { result := rest.result
        calls := rest.calls + 1
        sleeps :=
          if attempt < max_retries - 1 then
            base_delay * (attempt + 1) :: rest.sleeps
          else rest.sleeps }
  else
    { result := .error lastErr, calls := 0, sleeps := [] }
termination_by max_retries - attempt

/-- `FirecrawlClient._scrape_with_retries` / `GeminiClient._generate_with_retries`:
the full retry loop (the Gemini variant instantiates `base_delay = 1`). -/
def FirecrawlClient.scrape_with_retries {E A : Type} (op : Nat → Except E A)
    (max_retries : Nat) (base_delay : ℚ) : RetryTrace E A :=
  retryFrom op max_retries base_delay 0 none

/-! # Theorems -/

/-! ## C5 — boolean coercion -/

/-- C5, counterexample: the claim says every input other than a literal boolean or
one of the five truthy strings coerces to `false`, but the integer `1` is neither a
boolean nor a string and `_parse_boolean` returns `bool(1) = True` for it. -/
theorem C5_counterexample :
    JobExtractor.parse_boolean (PyVal.pyInt 1) = true ∧
      JobExtractor.parse_boolean (PyVal.pyList [PyVal.pyNone]) = true := by
  constructor <;> rfl

/-- C5, amended: a literal boolean passes through unchanged; a string coerces to
`true` exactly when its lower-cased form is `"true"`, `"yes"`, `"1"`, `"on"` or
`"enabled"`; every other input coerces to its Python truthiness (`bool(value)`):
a number is `true` iff non-zero, `None` is `false`, a list is `true` iff non-empty. -/
theorem C5_boolean_coercion :
    (∀ b, JobExtractor.parse_boolean (PyVal.pyBool b) = b) ∧
    (∀ s : PyStr, JobExtractor.parse_boolean (PyVal.pyStr s) = true ↔
      (pyLower s = "true".toList ∨ pyLower s = "yes".toList ∨ pyLower s = "1".toList ∨
        pyLower s = "on".toList ∨ pyLower s = "enabled".toList)) ∧
    (∀ n : Int, JobExtractor.parse_boolean (PyVal.pyInt n) = true ↔ n ≠ 0) ∧
    (∀ q : ℚ, JobExtractor.parse_boolean (PyVal.pyFloat q) = true ↔ q ≠ 0) ∧
    (JobExtractor.parse_boolean PyVal.pyNone = false) ∧
    (∀ l, JobExtractor.parse_boolean (PyVal.pyList l) = true ↔ l ≠ []) := by
  refine ⟨fun b => rfl, fun s => ?_, fun n => ?_, fun q => ?_, rfl, fun l => ?_⟩
  · simp [JobExtractor.parse_boolean]
  · simp [JobExtractor.parse_boolean, PyVal.truthy]
  · simp [JobExtractor.parse_boolean, PyVal.truthy]
  · simp [JobExtractor.parse_boolean, PyVal.truthy, List.isEmpty_iff]

/-! ## C6 — integer coercion of strings -/

/-- C6: string integer coercion strips all non-digit characters, multiplies the
stripped numeric value by 1000 when the original string contains `k`/`K`, and
yields absent when no digit remains; in particular `"$120,000"` gives `120000`,
`"120k"` and `"120K"` give `120000`, and `"invalid"` gives absent. -/
theorem C6_integer_coercion :
    JobExtractor.parse_integer (PyVal.pyStr "$120,000".toList) = some 120000 ∧
    JobExtractor.parse_integer (PyVal.pyStr "120k".toList) = some 120000 ∧
    JobExtractor.parse_integer (PyVal.pyStr "120K".toList) = some 120000 ∧
    JobExtractor.parse_integer (PyVal.pyStr "invalid".toList) = none ∧
    (∀ s : PyStr, s.filter Char.isDigit = [] →
      JobExtractor.parse_integer (PyVal.pyStr s) = none) ∧
    (∀ s : PyStr, ('k' ∈ s ∨ 'K' ∈ s) → s.filter Char.isDigit ≠ [] →
      JobExtractor.parse_integer (PyVal.pyStr s) =
        some ((digitsToNat (s.filter Char.isDigit) : Int) * 1000)) := by
  refine ⟨by decide, by decide, by decide, by decide, fun s h => ?_, fun s hk hd => ?_⟩
  · simp [JobExtractor.parse_integer, h]
  · have hmem : 'k' ∈ pyLower s := by
      rcases hk with hk | hk
      · exact List.mem_map.mpr ⟨'k', hk, by decide⟩
      · exact List.mem_map.mpr ⟨'K', hk, by decide⟩
    simp [JobExtractor.parse_integer, hd]
    intro h
    exact absurd hmem h

/-- C6, witness for the universally-quantified conjuncts: instantiation at
`"no digits"` and at `"99k"`. -/
theorem C6_witness :
    JobExtractor.parse_integer (PyVal.pyStr "no digits here!".toList) = none ∧
    JobExtractor.parse_integer (PyVal.pyStr "99k".toList) =
      some ((digitsToNat ("99k".toList.filter Char.isDigit) : Int) * 1000) :=
  ⟨C6_integer_coercion.2.2.2.2.1 "no digits here!".toList (by decide),
   C6_integer_coercion.2.2.2.2.2 "99k".toList (Or.inl (by decide)) (by decide)⟩

/-! ## C7 — URL auto-fixing -/

/-- `startsWith` is prefix decomposition. -/
theorem startsWith_iff {p : PyStr} : ∀ {s : PyStr}, startsWith s p = true ↔ ∃ t, s = p ++ t := by
  induction p with
  | nil => intro s; simp [startsWith]
  | cons c p ih =>
    intro s
    cases s with
    | nil => simp [startsWith]
    | cons a s =>
      simp only [startsWith, Bool.and_eq_true, decide_eq_true_eq, ih, List.cons_append,
        List.cons.injEq]
      constructor
      · rintro ⟨rfl, t, rfl⟩; exact ⟨t, rfl, rfl⟩
      · rintro ⟨t, rfl, rfl⟩; exact ⟨rfl, t, rfl⟩

/-- `contains` is `false` on non-members. -/
theorem contains_eq_false_of_not_mem {l : List Char} {a : Char} (h : a ∉ l) :
    l.contains a = false := by
  simpa using h

/-- C7, counterexample: the claim says every `www.`-prefixed url cleans to a valid
`https://...` URL and every `//`-prefixed url to a valid `https:...` URL, but
`"www.a b.c"` (internal space) and `"//a"` (result shorter than 10 characters)
are both rejected by `_clean_url`. -/
theorem C7_counterexample :
    startsWith (pyStrip "www.a b.c".toList) "www.".toList = true ∧
    DataCleaner.clean_url "www.a b.c".toList = none ∧
    startsWith (pyStrip "//a".toList) "//".toList = true ∧
    DataCleaner.clean_url "//a".toList = none := by
  refine ⟨by decide, by decide, by decide, by decide⟩

/-- C7, amended: for a url whose stripped form starts with `www.` and contains no
space, cleaning returns `"https://" + stripped` (which then passes the `≥ 10`
characters / no-space checks); for a stripped form starting with `//`, containing
no space and at least 4 characters long (so that `"https:" + stripped` reaches 10
characters), cleaning returns `"https:" + stripped`. -/
theorem C7_url_cleaning (s : PyStr) :
    (startsWith (pyStrip s) "www.".toList = true → ' ' ∉ pyStrip s →
      DataCleaner.clean_url s = some ("https://".toList ++ pyStrip s)) ∧
    (startsWith (pyStrip s) "//".toList = true → ' ' ∉ pyStrip s →
      4 ≤ (pyStrip s).length →
      DataCleaner.clean_url s = some ("https:".toList ++ pyStrip s)) := by
  constructor
  · intro hw hsp
    obtain ⟨t, ht⟩ := startsWith_iff.mp hw
    have hs : s ≠ [] := by
      intro h
      rw [h] at ht
      simp [pyStrip] at ht
    have hw4 : "www.".toList = ['w', 'w', 'w', '.'] := rfl
    rw [hw4] at ht
    simp only [DataCleaner.clean_url, if_neg hs, ht]
    have h1 : startsWith (['w', 'w', 'w', '.'] ++ t) "http://".toList = false := by
      simp [startsWith]
    have h2 : startsWith (['w', 'w', 'w', '.'] ++ t) "https://".toList = false := by
      simp [startsWith]
    have h3 : startsWith (['w', 'w', 'w', '.'] ++ t) "//".toList = false := by
      simp [startsWith]
    have h4 : startsWith (['w', 'w', 'w', '.'] ++ t) "www.".toList = true := by
      simp [startsWith, hw4, startsWith_iff]
    simp only [h1, h2, h3, h4, Bool.false_or, Bool.or_false, if_false, if_true,
      Bool.false_eq_true, if_neg, ite_true, ite_false]
    have hlen : ¬ (("https://".toList ++ (['w', 'w', 'w', '.'] ++ t)).length < 10) := by
      simp
    have hcon : ("https://".toList ++ (['w', 'w', 'w', '.'] ++ t)).contains ' ' = false := by
      apply contains_eq_false_of_not_mem
      intro hmem
      rcases List.mem_append.mp hmem with h | h
      · revert h; decide
      · rw [ht] at hsp; exact hsp h
    rw [if_neg]
    simp only [hcon, Bool.or_false]
    simp
  · intro hw hsp hlen4
    obtain ⟨t, ht⟩ := startsWith_iff.mp hw
    have hs : s ≠ [] := by
      intro h
      rw [h] at ht
      simp [pyStrip] at ht
    have hw2 : "//".toList = ['/', '/'] := rfl
    rw [hw2] at ht
    simp only [DataCleaner.clean_url, if_neg hs, ht]
    have h1 : startsWith (['/', '/'] ++ t) "http://".toList = false := by
      simp [startsWith]
    have h2 : startsWith (['/', '/'] ++ t) "https://".toList = false := by
      simp [startsWith]
    have h3 : startsWith (['/', '/'] ++ t) "//".toList = true := by
      simp [startsWith]
    simp only [h1, h2, h3, Bool.false_or, Bool.or_false, if_false, if_true,
      Bool.false_eq_true, ite_true, ite_false]
    have hlen : ¬ (("https:".toList ++ (['/', '/'] ++ t)).length < 10) := by
      rw [ht] at hlen4
      simp at hlen4 ⊢
      omega
    have hcon : ("https:".toList ++ (['/', '/'] ++ t)).contains ' ' = false := by
      apply contains_eq_false_of_not_mem
      intro hmem
      rcases List.mem_append.mp hmem with h | h
      · revert h; decide
      · rw [ht] at hsp; exact hsp h
    rw [if_neg]
    simp only [hcon, Bool.or_false]
    simpa using hlen

/-- C7, witness: instantiation at `"www.example.com"` and `"//example.com"`. -/
theorem C7_witness :
    DataCleaner.clean_url "www.example.com".toList =
      some ("https://".toList ++ pyStrip "www.example.com".toList) ∧
    DataCleaner.clean_url "//example.com".toList =
      some ("https:".toList ++ pyStrip "//example.com".toList) :=
  ⟨(C7_url_cleaning "www.example.com".toList).1 (by decide) (by decide),
   (C7_url_cleaning "//example.com".toList).2 (by decide) (by decide) (by decide)⟩

/-! ## C8 — `scrape_from_url` and the host check -/

/-- `SearchParams.from_url` reads only the query component of the URL. -/
theorem from_url_query_eq {u v : Url} (h : u.query = v.query) :
    SearchParams.from_url u = SearchParams.from_url v := by
  simp only [SearchParams.from_url, h]

/-- C8, counterexample: the claim says `scrape_from_url` accepts only URLs on this
site's host and does not delegate for any other host; but for
`https://google.com/?role=design` — whose host is rejected by `is_yc_url` — it
parses the query parameters and delegates to the search flow. -/
theorem C8_counterexample :
    URLBuilder.is_yc_url
        { scheme := "https".toList, host := "google.com".toList, path := "/".toList,
          query := [("role".toList, "design".toList)] } = false ∧
    YCJobScraper.scrape_from_url
        { scheme := "https".toList, host := "google.com".toList, path := "/".toList,
          query := [("role".toList, "design".toList)] } ≠ ScrapeOutcome.empty := by
  refine ⟨by decide, by decide⟩

/-- C8, amended: `scrape_from_url` performs no host validation.  Whenever the URL's
query parameters parse into `SearchParams` — whatever the host, including hosts for
which `is_yc_url` is false — it delegates to the search flow with exactly those
parameters; only a parse failure produces the empty result, and the outcome depends
on the query component alone. -/
theorem C8_from_url_no_host_check :
    (∀ u : Url, ∀ p, SearchParams.from_url u = some p →
      YCJobScraper.scrape_from_url u = ScrapeOutcome.delegated p) ∧
    (∀ u : Url, SearchParams.from_url u = none →
      YCJobScraper.scrape_from_url u = ScrapeOutcome.empty) ∧
    (∀ u v : Url, u.query = v.query →
      YCJobScraper.scrape_from_url u = YCJobScraper.scrape_from_url v) := by
  refine ⟨fun u p h => ?_, fun u h => ?_, fun u v h => ?_⟩
  · simp [YCJobScraper.scrape_from_url, h]
  · simp [YCJobScraper.scrape_from_url, h]
  · simp [YCJobScraper.scrape_from_url, from_url_query_eq h]

/-- C8, witness: the amended theorem applied to the non-YC URL of the
counterexample's shape and to a pair of URLs differing only in host. -/
theorem C8_witness :
    YCJobScraper.scrape_from_url
        { scheme := "https".toList, host := "example.org".toList, path := "/x".toList,
          query := [("jobType".toList, "contract".toList)] } =
      ScrapeOutcome.delegated { job_type := JobType.contract } ∧
    YCJobScraper.scrape_from_url
        { scheme := "https".toList, host := "example.org".toList, path := "/x".toList,
          query := [] } =
      YCJobScraper.scrape_from_url
        { scheme := "https".toList, host := "www.workatastartup.com".toList,
          path := "/companies".toList, query := [] } :=
  ⟨C8_from_url_no_host_check.1 _ _ (by decide),
   C8_from_url_no_host_check.2.2 _ _ (by decide)⟩

/-! ## C9 — record immutability through the pipeline -/

/-- C9, counterexample: the claim says the orchestrator's per-company job
processing leaves the fields of already-constructed records unchanged, but for a
company without a URL the three plain-string context assignments succeed and fill
the job's absent `company_description` / `company_industry` / `company_size`
fields in place. -/
theorem C9_counterexample :
    YCJobScraper.add_company_context
        { name := "Acme".toList, description := some "B2B tools".toList,
          industry := some "SaaS".toList, team_size := some "11-50".toList }
        { title := "Dev".toList, company_name := "Acme".toList } =
      some { title := "Dev".toList, company_name := "Acme".toList,
             company_description := some "B2B tools".toList,
             company_industry := some "SaaS".toList,
             company_size := some "11-50".toList } ∧
    YCJobScraper.add_company_context
        { name := "Acme".toList, description := some "B2B tools".toList,
          industry := some "SaaS".toList, team_size := some "11-50".toList }
        { title := "Dev".toList, company_name := "Acme".toList } ≠
      some { title := "Dev".toList, company_name := "Acme".toList } := by
  refine ⟨by decide, by decide⟩

/-- When the company holds a URL object, a batch containing any job without a
truthy `company_url` raises and is dropped whole. -/
theorem denormalize_jobs_url_raises (c : Company) :
    ∀ js : List Job, c.url ≠ none →
      (∃ jb ∈ js, truthyOptStr jb.company_url = false) →
      YCJobScraper.denormalize_jobs c js = none := by
  intro js
  induction js with
  | nil => intro _ h; simp at h
  | cons j rest ih =>
    intro hurl hex
    rcases hex with ⟨jb, hmem, hjb⟩
    rcases List.mem_cons.mp hmem with rfl | hmem
    · simp [YCJobScraper.denormalize_jobs, YCJobScraper.add_company_context, hjb, hurl]
    · cases hadd : YCJobScraper.add_company_context c j with
      | none => simp [YCJobScraper.denormalize_jobs, hadd]
      | some jd =>
        simp [YCJobScraper.denormalize_jobs, hadd, ih hurl ⟨jb, hmem, hjb⟩]

/-- C9, amended: cleaning builds new records as a pure function of its input; the
orchestrator's per-company job processing then mutates each extracted job in
place, but only partly: the three plain-string context fields
(`company_description`, `company_industry`, `company_size`) are filled from the
company when absent/empty (stripped by assignment validation) and kept when
already truthy, and every non-context field is unchanged.  The `company_url`
fill, however, never succeeds: when the job's `company_url` is absent and the
company holds a URL object, the assignment raises `ValidationError` and the
company's whole job batch is dropped; when the company has no URL, the job's
`company_url` is merely overwritten with `None`. -/
theorem C9_denormalization_frame (c : Company) (j : Job) :
    (truthyOptStr j.company_url = false → c.url ≠ none →
      YCJobScraper.add_company_context c j = none) ∧
    (∀ jd, YCJobScraper.add_company_context c j = some jd →
      (jd.title = j.title ∧ jd.company_name = j.company_name ∧
       jd.description = j.description ∧ jd.location = j.location ∧
       jd.remote_ok = j.remote_ok ∧ jd.location_type = j.location_type ∧
       jd.salary_min = j.salary_min ∧ jd.salary_max = j.salary_max ∧
       jd.salary_currency = j.salary_currency ∧ jd.equity_min = j.equity_min ∧
       jd.equity_max = j.equity_max ∧ jd.job_type = j.job_type ∧
       jd.experience_level = j.experience_level ∧ jd.department = j.department ∧
       jd.skills_required = j.skills_required ∧
       jd.education_required = j.education_required ∧
       jd.years_experience = j.years_experience ∧
       jd.application_url = j.application_url ∧
       jd.application_email = j.application_email ∧
       jd.posted_date = j.posted_date ∧
       jd.visa_sponsorship = j.visa_sponsorship) ∧
      (truthyOptStr j.company_url = true → jd.company_url = j.company_url) ∧
      (truthyOptStr j.company_url = false →
        c.url = none ∧ jd.company_url = none) ∧
      (truthyOptStr j.company_description = true →
        jd.company_description = j.company_description) ∧
      (truthyOptStr j.company_description = false →
        jd.company_description = c.description.map pyStrip) ∧
      (truthyOptStr j.company_industry = true →
        jd.company_industry = j.company_industry) ∧
      (truthyOptStr j.company_industry = false →
        jd.company_industry = c.industry.map pyStrip) ∧
      (truthyOptStr j.company_size = true → jd.company_size = j.company_size) ∧
      (truthyOptStr j.company_size = false →
        jd.company_size = c.team_size.map pyStrip)) ∧
    (∀ js : List Job, c.url ≠ none →
      (∃ jb ∈ js, truthyOptStr jb.company_url = false) →
      YCJobScraper.company_jobs_contributed c js = []) := by
  refine ⟨fun h1 h2 => ?_, fun jd hd => ?_, fun js hurl hex => ?_⟩
  · simp [YCJobScraper.add_company_context, h1, h2]
  · have hnr : ¬ (truthyOptStr j.company_url = false ∧ c.url ≠ none) := by
      intro hc
      simp [YCJobScraper.add_company_context, hc.1, hc.2] at hd
    rw [YCJobScraper.add_company_context, if_neg hnr] at hd
    injection hd with hd
    subst hd
    refine ⟨⟨rfl, rfl, rfl, rfl, rfl, rfl, rfl, rfl, rfl, rfl, rfl, rfl, rfl, rfl,
      rfl, rfl, rfl, rfl, rfl, rfl, rfl⟩,
      fun h => by simp [h], fun h => ?_, fun h => by simp [h], fun h => by simp [h],
      fun h => by simp [h], fun h => by simp [h], fun h => by simp [h],
      fun h => by simp [h]⟩
    have hcu : c.url = none := not_not.mp (fun hc => hnr ⟨h, hc⟩)
    exact ⟨hcu, by simp [h]⟩
  · simp [YCJobScraper.company_jobs_contributed,
      denormalize_jobs_url_raises c js hurl hex]

/-- C9, witness: the amended theorem applied at a company with a URL object and a
job without `company_url` — the assignment raises and the batch is dropped. -/
theorem C9_witness :
    YCJobScraper.add_company_context
        { name := "Acme".toList, url := some "https://acme.example/".toList }
        { title := "Dev".toList, company_name := "Acme".toList } = none ∧
    YCJobScraper.company_jobs_contributed
        { name := "Acme".toList, url := some "https://acme.example/".toList }
        [{ title := "Dev".toList, company_name := "Acme".toList }] = [] := by
  constructor
  · exact (C9_denormalization_frame
        { name := "Acme".toList, url := some "https://acme.example/".toList }
        { title := "Dev".toList, company_name := "Acme".toList }).1
      (by decide) (by decide)
  · exact (C9_denormalization_frame
        { name := "Acme".toList, url := some "https://acme.example/".toList }
        { title := "Dev".toList, company_name := "Acme".toList }).2.2 _
      (by decide)
      ⟨{ title := "Dev".toList, company_name := "Acme".toList },
        List.mem_singleton_self _, by decide⟩

/-! ## C4 — retry policy -/

/-- The retry loop performs at most `maxR - attempt` further calls. -/
theorem retryFrom_calls_le {E A : Type} (op : Nat → Except E A) (maxR : Nat) (d : ℚ) :
    ∀ fuel attempt lastErr, maxR - attempt = fuel →
      (retryFrom op maxR d attempt lastErr).calls ≤ maxR - attempt := by
  intro fuel
  induction fuel with
  | zero =>
    intro attempt lastErr h
    rw [retryFrom, dif_neg (by omega)]
    simp
  | succ n ih =>
    intro attempt lastErr h
    rw [retryFrom, dif_pos (by omega : attempt < maxR)]
    cases hop : op attempt with
    | ok a => simp; omega
    | error e =>
      have := ih (attempt + 1) (some e) (by omega)
      simp only
      omega

/-- Characterization of the retry loop when every remaining attempt fails. -/
theorem retryFrom_all_fail {E A : Type} (op : Nat → Except E A) (maxR : Nat) (d : ℚ)
    (e : Nat → E) :
    ∀ fuel attempt lastErr, maxR - attempt = fuel → attempt < maxR →
      (∀ i, attempt ≤ i → i < maxR → op i = .error (e i)) →
      retryFrom op maxR d attempt lastErr =
        { result := .error (some (e (maxR - 1))), calls := maxR - attempt,
          sleeps := (List.range' (attempt + 1) (maxR - 1 - attempt)).map
            (fun n : Nat => d * (n : ℚ)) } := by
  intro fuel
  induction fuel with
  | zero => intro attempt lastErr h hlt _; omega
  | succ n ih =>
    intro attempt lastErr h hlt hfail
    rw [retryFrom, dif_pos hlt, hfail attempt le_rfl hlt]
    dsimp only
    by_cases hlast : attempt + 1 < maxR
    · rw [ih (attempt + 1) (some (e attempt)) (by omega) hlast
        (fun i hi1 hi2 => hfail i (by omega) hi2)]
      have hr : maxR - 1 - attempt = (maxR - 1 - (attempt + 1)) + 1 := by omega
      rw [if_pos (by omega : attempt < maxR - 1), hr, List.range'_succ]
      simp only [List.map_cons, RetryTrace.mk.injEq, List.cons.injEq, eq_self_iff_true,
        and_true, true_and]
      constructor
      · omega
      · push_cast
        ring
    · rw [retryFrom, dif_neg (by omega : ¬ attempt + 1 < maxR)]
      rw [if_neg (by omega : ¬ attempt < maxR - 1)]
      have h1 : maxR - 1 - attempt = 0 := by omega
      have h2 : attempt = maxR - 1 := by omega
      simp [h1, h2, RetryTrace.mk.injEq]
      omega

/-- Characterization of the retry loop when attempt `k` succeeds after failures. -/
theorem retryFrom_success {E A : Type} (op : Nat → Except E A) (maxR : Nat) (d : ℚ)
    (e : Nat → E) (k : Nat) (a : A) :
    ∀ fuel attempt lastErr, k - attempt = fuel → attempt ≤ k → k < maxR →
      (∀ i, attempt ≤ i → i < k → op i = .error (e i)) → op k = .ok a →
      retryFrom op maxR d attempt lastErr =
        { result := .ok a, calls := k + 1 - attempt,
          sleeps := (List.range' (attempt + 1) (k - attempt)).map
            (fun n : Nat => d * (n : ℚ)) } := by
  intro fuel
  induction fuel with
  | zero =>
    intro attempt lastErr h hle hlt _ hok
    have hak : attempt = k := by omega
    subst hak
    rw [retryFrom, dif_pos hlt, hok]
    simp [Nat.sub_self]
  | succ n ih =>
    intro attempt lastErr h hle hlt hfail hok
    have haltk : attempt < k := by omega
    rw [retryFrom, dif_pos (by omega : attempt < maxR),
      hfail attempt le_rfl haltk]
    dsimp only
    rw [ih (attempt + 1) (some (e attempt)) (by omega) (by omega) hlt
      (fun i hi1 hi2 => hfail i (by omega) hi2) hok]
    have hr : k - attempt = (k - (attempt + 1)) + 1 := by omega
    rw [if_pos (by omega : attempt < maxR - 1), hr, List.range'_succ]
    simp only [List.map_cons, RetryTrace.mk.injEq, List.cons.injEq, eq_self_iff_true,
      and_true, true_and]
    constructor
    · omega
    · push_cast
      ring

/-- C4: the retry wrapper invokes the wrapped operation at most `max_attempts`
times; after each failed attempt except the final one it sleeps exactly
`base_delay * attempt_number` (linear, uncapped), and nothing after the final
attempt; when every attempt fails it ends in a terminal failure carrying the last
attempt's error, never a success value; when attempt `k` succeeds it returns that
success after `k + 1` calls with the linear sleep schedule of the `k` failures. -/
theorem C4_retry_policy :
    (∀ (E A : Type) (op : Nat → Except E A) (maxR : Nat) (d : ℚ),
      (FirecrawlClient.scrape_with_retries op maxR d).calls ≤ maxR) ∧
    (∀ (E A : Type) (op : Nat → Except E A) (maxR : Nat) (d : ℚ) (e : Nat → E),
      1 ≤ maxR → (∀ i, i < maxR → op i = .error (e i)) →
      FirecrawlClient.scrape_with_retries op maxR d =
        { result := .error (some (e (maxR - 1))), calls := maxR,
          sleeps := (List.range' 1 (maxR - 1)).map (fun n : Nat => d * (n : ℚ)) }) ∧
    (∀ (E A : Type) (op : Nat → Except E A) (maxR : Nat) (d : ℚ) (e : Nat → E)
      (k : Nat) (a : A),
      k < maxR → (∀ i, i < k → op i = .error (e i)) → op k = .ok a →
      FirecrawlClient.scrape_with_retries op maxR d =
        { result := .ok a, calls := k + 1,
          sleeps := (List.range' 1 k).map (fun n : Nat => d * (n : ℚ)) }) := by
  refine ⟨fun E A op maxR d => ?_, fun E A op maxR d e h1 hfail => ?_,
    fun E A op maxR d e k a hk hfail hok => ?_⟩
  · simpa using retryFrom_calls_le op maxR d (maxR - 0) 0 none rfl
  · simpa using retryFrom_all_fail op maxR d e (maxR - 0) 0 none rfl (by omega)
      (fun i _ hi => hfail i hi)
  · simpa using retryFrom_success op maxR d e k a (k - 0) 0 none rfl (by omega) hk
      (fun i _ hi => hfail i hi) hok

/-- C4, witness: three failures with base delay 2 give three calls, sleeps
`[2*1, 2*2]`, and a terminal error carrying the last attempt's error. -/
theorem C4_witness :
    FirecrawlClient.scrape_with_retries (fun i => (Except.error i : Except Nat Unit)) 3 2 =
      { result := .error (some 2), calls := 3,
        sleeps := (List.range' 1 2).map (fun n : Nat => (2 : ℚ) * (n : ℚ)) } :=
  C4_retry_policy.2.1 Nat Unit _ 3 2 (fun i => i) (by omega) (fun i _ => rfl)

/-! ## C10 — tag / skill list cleaning -/

/-- Emitted tags avoid the seen set and are pairwise distinct case-insensitively. -/
theorem clean_tags_go_pairwise : ∀ (l : List PyStr) (seen : List PyStr),
    (∀ x ∈ DataCleaner.clean_tags_go l seen, pyLower x ∉ seen) ∧
    (DataCleaner.clean_tags_go l seen).Pairwise (fun a b => pyLower a ≠ pyLower b) := by
  intro l
  induction l with
  | nil => intro seen; simp [DataCleaner.clean_tags_go]
  | cons t rest ih =>
    intro seen
    by_cases h1 : t = []
    · simp only [DataCleaner.clean_tags_go, if_pos h1]; exact ih seen
    · simp only [DataCleaner.clean_tags_go, if_neg h1]
      by_cases h2 : (pyStrip t).length < 2
      · simp only [if_pos h2]; exact ih seen
      · simp only [if_neg h2]
        by_cases h3 : pyLower (pyTitle (pyStrip t)) ∈ seen
        · simp only [if_pos h3]; exact ih seen
        · simp only [if_neg h3]
          obtain ⟨ihm, ihp⟩ := ih (pyLower (pyTitle (pyStrip t)) :: seen)
          constructor
          · intro x hx
            rcases List.mem_cons.mp hx with rfl | hx
            · exact h3
            · intro hxs
              exact ihm x hx (List.mem_cons_of_mem _ hxs)
          · refine List.pairwise_cons.mpr ⟨?_, ihp⟩
            intro y hy heq
            exact ihm y hy (heq ▸ List.mem_cons_self _ _)

/-- Entries whose stripped form is shorter than 2 characters never affect the tag
cleaning loop. -/
theorem clean_tags_go_filter : ∀ (l : List PyStr) (seen : List PyStr),
    DataCleaner.clean_tags_go l seen =
      DataCleaner.clean_tags_go (l.filter (fun t => decide (2 ≤ (pyStrip t).length))) seen := by
  intro l
  induction l with
  | nil => intro seen; simp
  | cons t rest ih =>
    intro seen
    by_cases h1 : t = []
    · have : ¬ 2 ≤ (pyStrip t).length := by subst h1; decide
      simp only [DataCleaner.clean_tags_go, if_pos h1, List.filter_cons,
        decide_eq_true_eq, if_neg this]
      exact ih seen
    · by_cases h2 : (pyStrip t).length < 2
      · have : ¬ 2 ≤ (pyStrip t).length := by omega
        simp only [DataCleaner.clean_tags_go, if_neg h1, if_pos h2, List.filter_cons,
          decide_eq_true_eq, if_neg this]
        exact ih seen
      · have : 2 ≤ (pyStrip t).length := by omega
        simp only [DataCleaner.clean_tags_go, if_neg h1, if_neg h2, List.filter_cons,
          decide_eq_true_eq, if_pos this]
        by_cases h3 : pyLower (pyTitle (pyStrip t)) ∈ seen
        · simp only [if_pos h3]; exact ih seen
        · simp only [if_neg h3]
          exact congrArg _ (ih _)

/-- Emitted skills avoid the seen set and are pairwise distinct case-insensitively. -/
theorem clean_skills_go_pairwise : ∀ (l : List PyStr) (seen : List PyStr),
    (∀ x ∈ DataCleaner.clean_skills_go l seen, pyLower x ∉ seen) ∧
    (DataCleaner.clean_skills_go l seen).Pairwise (fun a b => pyLower a ≠ pyLower b) := by
  intro l
  induction l with
  | nil => intro seen; simp [DataCleaner.clean_skills_go]
  | cons t rest ih =>
    intro seen
    by_cases h1 : t = []
    · simp only [DataCleaner.clean_skills_go, if_pos h1]; exact ih seen
    · simp only [DataCleaner.clean_skills_go, if_neg h1]
      by_cases h2 : (pyStrip t).length < 2
      · simp only [if_pos h2]; exact ih seen
      · simp only [if_neg h2]
        by_cases h3 : pyLower (DataCleaner.normalize_skill (pyStrip t)) ∈ seen
        · simp only [if_pos h3]; exact ih seen
        · simp only [if_neg h3]
          obtain ⟨ihm, ihp⟩ :=
            ih (pyLower (DataCleaner.normalize_skill (pyStrip t)) :: seen)
          constructor
          · intro x hx
            rcases List.mem_cons.mp hx with rfl | hx
            · exact h3
            · intro hxs
              exact ihm x hx (List.mem_cons_of_mem _ hxs)
          · refine List.pairwise_cons.mpr ⟨?_, ihp⟩
            intro y hy heq
            exact ihm y hy (heq ▸ List.mem_cons_self _ _)

/-- Entries whose stripped form is shorter than 2 characters never affect the skill
cleaning loop. -/
theorem clean_skills_go_filter : ∀ (l : List PyStr) (seen : List PyStr),
    DataCleaner.clean_skills_go l seen =
      DataCleaner.clean_skills_go (l.filter (fun t => decide (2 ≤ (pyStrip t).length))) seen := by
  intro l
  induction l with
  | nil => intro seen; simp
  | cons t rest ih =>
    intro seen
    by_cases h1 : t = []
    · have : ¬ 2 ≤ (pyStrip t).length := by subst h1; decide
      simp only [DataCleaner.clean_skills_go, if_pos h1, List.filter_cons,
        decide_eq_true_eq, if_neg this]
      exact ih seen
    · by_cases h2 : (pyStrip t).length < 2
      · have : ¬ 2 ≤ (pyStrip t).length := by omega
        simp only [DataCleaner.clean_skills_go, if_neg h1, if_pos h2, List.filter_cons,
          decide_eq_true_eq, if_neg this]
        exact ih seen
      · have : 2 ≤ (pyStrip t).length := by omega
        simp only [DataCleaner.clean_skills_go, if_neg h1, if_neg h2, List.filter_cons,
          decide_eq_true_eq, if_pos this]
        by_cases h3 : pyLower (DataCleaner.normalize_skill (pyStrip t)) ∈ seen
        · simp only [if_pos h3]; exact ih seen
        · simp only [if_neg h3]
          exact congrArg _ (ih _)

/-- C10: tag and skill cleaning drop every element whose stripped text is shorter
than 2 characters (including empty elements); the result holds at most 10 tags /
20 skills; and no two returned elements are equal case-insensitively. -/
theorem C10_tag_skill_lists :
    (∀ tags : List PyStr, (DataCleaner.clean_tags_list tags).length ≤ 10) ∧
    (∀ tags : List PyStr,
      (DataCleaner.clean_tags_list tags).Pairwise (fun a b => pyLower a ≠ pyLower b)) ∧
    (∀ tags : List PyStr, DataCleaner.clean_tags_list tags =
      DataCleaner.clean_tags_list
        (tags.filter (fun t => decide (2 ≤ (pyStrip t).length)))) ∧
    (∀ skills : List PyStr, (DataCleaner.clean_skills_list skills).length ≤ 20) ∧
    (∀ skills : List PyStr,
      (DataCleaner.clean_skills_list skills).Pairwise (fun a b => pyLower a ≠ pyLower b)) ∧
    (∀ skills : List PyStr, DataCleaner.clean_skills_list skills =
      DataCleaner.clean_skills_list
        (skills.filter (fun t => decide (2 ≤ (pyStrip t).length)))) := by
  refine ⟨fun tags => ?_, fun tags => ?_, fun tags => ?_,
    fun skills => ?_, fun skills => ?_, fun skills => ?_⟩
  · simp [DataCleaner.clean_tags_list]
  · exact List.Pairwise.sublist (List.take_sublist _ _) (clean_tags_go_pairwise tags []).2
  · unfold DataCleaner.clean_tags_list
    rw [clean_tags_go_filter tags []]
  · simp [DataCleaner.clean_skills_list]
  · exact List.Pairwise.sublist (List.take_sublist _ _) (clean_skills_go_pairwise skills []).2
  · unfold DataCleaner.clean_skills_list
    rw [clean_skills_go_filter skills []]

/-! ## C1 — `SearchParams` round-trip -/

theorem yesnoanyOfValVal (x : YesNoAny) : YesNoAny.ofVal x.val = some x := by
  cases x <;> decide

theorem jobtypeOfValVal (x : JobType) : JobType.ofVal x.val = some x := by
  cases x <;> decide

theorem roleOfValVal (x : Role) : Role.ofVal x.val = some x := by
  cases x <;> decide

theorem sortbyOfValVal (x : SortBy) : SortBy.ofVal x.val = some x := by
  cases x <;> decide

theorem layoutOfValVal (x : Layout) : Layout.ofVal x.val = some x := by
  cases x <;> decide

theorem yesnoanyValIsEmpty (x : YesNoAny) : x.val.isEmpty = false := by
  cases x <;> decide

theorem jobtypeValIsEmpty (x : JobType) : x.val.isEmpty = false := by
  cases x <;> decide

theorem roleValIsEmpty (x : Role) : x.val.isEmpty = false := by
  cases x <;> decide

theorem sortbyValIsEmpty (x : SortBy) : x.val.isEmpty = false := by
  cases x <;> decide

theorem layoutValIsEmpty (x : Layout) : x.val.isEmpty = false := by
  cases x <;> decide

/-- C1: parsing the URL built from a `SearchParams` value recovers it exactly,
for every value whose enum-typed fields hold listed enum members (enforced by the
types), whose free-text fields `industry` / `interview_process` / `tab` are
non-empty (any listed token is), and whose optional free-text fields `location` /
`company_size` are unset or non-empty. -/
theorem C1_searchparams_roundtrip (p : SearchParams)
    (hind : p.industry ≠ []) (hip : p.interview_process ≠ []) (htab : p.tab ≠ [])
    (hloc : ∀ l, p.location = some l → l ≠ [])
    (hcs : ∀ c, p.company_size = some c → c ≠ []) :
    SearchParams.from_url (URLBuilder.build_search_url p) = some p := by
  have hind' : p.industry.isEmpty = false := by
    simpa [List.isEmpty_iff] using hind
  have hip' : p.interview_process.isEmpty = false := by
    simpa [List.isEmpty_iff] using hip
  have htab' : p.tab.isEmpty = false := by
    simpa [List.isEmpty_iff] using htab
  obtain ⟨pd, phe, phs, pind, pip, pjt, pla, pro, psb, ptab, puv, plo, pcs⟩ := p
  simp only at hind' hip' htab' hloc hcs
  rcases hL : plo with _ | l <;> rcases hC : pcs with _ | c <;> subst hL <;> subst hC
  · simp [SearchParams.from_url, URLBuilder.build_search_url, SearchParams.to_url_params,
      parseQsFirst, fieldFrom, hind', hip', htab',
      yesnoanyOfValVal, jobtypeOfValVal, roleOfValVal, sortbyOfValVal,
      layoutOfValVal, yesnoanyValIsEmpty, jobtypeValIsEmpty, roleValIsEmpty,
      sortbyValIsEmpty, layoutValIsEmpty]
  · have hc' : c.isEmpty = false := by
      simpa [List.isEmpty_iff] using hcs c rfl
    simp [SearchParams.from_url, URLBuilder.build_search_url, SearchParams.to_url_params,
      parseQsFirst, fieldFrom, hind', hip', htab', hc',
      yesnoanyOfValVal, jobtypeOfValVal, roleOfValVal, sortbyOfValVal,
      layoutOfValVal, yesnoanyValIsEmpty, jobtypeValIsEmpty, roleValIsEmpty,
      sortbyValIsEmpty, layoutValIsEmpty]
  · have hl' : l.isEmpty = false := by
      simpa [List.isEmpty_iff] using hloc l rfl
    simp [SearchParams.from_url, URLBuilder.build_search_url, SearchParams.to_url_params,
      parseQsFirst, fieldFrom, hind', hip', htab', hl',
      yesnoanyOfValVal, jobtypeOfValVal, roleOfValVal, sortbyOfValVal,
      layoutOfValVal, yesnoanyValIsEmpty, jobtypeValIsEmpty, roleValIsEmpty,
      sortbyValIsEmpty, layoutValIsEmpty]
  · have hl' : l.isEmpty = false := by
      simpa [List.isEmpty_iff] using hloc l rfl
    have hc' : c.isEmpty = false := by
      simpa [List.isEmpty_iff] using hcs c rfl
    simp [SearchParams.from_url, URLBuilder.build_search_url, SearchParams.to_url_params,
      parseQsFirst, fieldFrom, hind', hip', htab', hl', hc',
      yesnoanyOfValVal, jobtypeOfValVal, roleOfValVal, sortbyOfValVal,
      layoutOfValVal, yesnoanyValIsEmpty, jobtypeValIsEmpty, roleValIsEmpty,
      sortbyValIsEmpty, layoutValIsEmpty]

/-- C1, witness: the round-trip theorem applied to a concrete parameter set with
both optional free-text fields present. -/
theorem C1_witness :
    SearchParams.from_url (URLBuilder.build_search_url
      ({ role := Role.engineering, job_type := JobType.parttime,
         sort_by := SortBy.company_name, industry := "fintech".toList,
         location := some "Remote US".toList,
         company_size := some "11-50".toList } : SearchParams)) =
      some ({ role := Role.engineering, job_type := JobType.parttime,
              sort_by := SortBy.company_name, industry := "fintech".toList,
              location := some "Remote US".toList,
              company_size := some "11-50".toList } : SearchParams) :=
  C1_searchparams_roundtrip _ (by decide) (by decide) (by decide)
    (fun l h => by simp at h; subst h; decide) (fun c h => by simp at h; subst h; decide)

/-! ## C3 — deduplication -/

/-- C3, counterexample: dedup keys are computed from the *pre-cleaning* names while
`_clean_text` collapses internal whitespace, so `"Acme  Inc"` (two spaces) and
`"Acme Inc"` have distinct keys, both survive, and the returned list holds two
companies with the same lower-cased trimmed name — and likewise two jobs with the
same lower-cased trimmed (company, title) pair. -/
theorem C3_counterexample :
    (DataCleaner.clean_companies
        [{ name := "Acme  Inc".toList }, { name := "Acme Inc".toList }]).map
      companyNameKey = ["acme inc".toList, "acme inc".toList] ∧
    (DataCleaner.clean_jobs
        [{ title := "Dev".toList, company_name := "Acme  Inc".toList },
         { title := "Dev".toList, company_name := "Acme Inc".toList }]).map
      (fun j => (pyStrip (pyLower j.company_name), pyStrip (pyLower j.title))) =
      [("acme inc".toList, "dev".toList), ("acme inc".toList, "dev".toList)] := by
  refine ⟨by decide, by decide⟩

/-- The company cleaning loop emits at most one record per distinct unseen name key. -/
theorem clean_companies_go_card :
    ∀ (cs : List Company) (seenNames seenUrls : List PyStr),
      (DataCleaner.clean_companies_go cs seenNames seenUrls).length ≤
        ((cs.map companyNameKey).toFinset \ seenNames.toFinset).card := by
  intro cs
  induction cs with
  | nil => intro sn su; simp [DataCleaner.clean_companies_go]
  | cons c rest ih =>
    intro sn su
    have hmono : ((rest.map companyNameKey).toFinset \ sn.toFinset).card ≤
        (((c :: rest).map companyNameKey).toFinset \ sn.toFinset).card := by
      apply Finset.card_le_card
      apply Finset.sdiff_subset_sdiff _ Finset.Subset.rfl
      simp only [List.map_cons, List.toFinset_cons]
      exact Finset.subset_insert _ _
    by_cases h1 : companyNameKey c ∈ sn
    · simp only [DataCleaner.clean_companies_go, if_pos h1]
      exact (ih sn su).trans hmono
    · simp only [DataCleaner.clean_companies_go, if_neg h1]
      by_cases h2 : (match c.yc_profile_url with
        | some u => (!u.isEmpty && decide (u ∈ su)) = true
        | none => False)
      · rw [if_pos]
        · exact (ih sn su).trans hmono
        · rcases hu : c.yc_profile_url with _ | u
          · rw [hu] at h2; exact absurd h2 (by simp)
          · rw [hu] at h2; simpa using h2
      · rw [if_neg]
        swap
        · rcases hu : c.yc_profile_url with _ | u
          · rw [hu] at h2; simp
          · rw [hu] at h2; simpa using h2
        cases hc : DataCleaner.clean_company c with
        | none => exact (ih sn su).trans hmono
        | some cc =>
          simp only [List.length_cons]
          have hIH := ih (companyNameKey c :: sn)
            (match cc.yc_profile_url with
             | some u => if u.isEmpty then su else u :: su
             | none => su)
          have hrw : (rest.map companyNameKey).toFinset \
              (companyNameKey c :: sn).toFinset =
              ((rest.map companyNameKey).toFinset \ sn.toFinset).erase
                (companyNameKey c) := by
            simp only [List.toFinset_cons, Finset.sdiff_insert]
          rw [hrw] at hIH
          have hkey : companyNameKey c ∉ sn.toFinset := by
            simpa using h1
          have hins : ((c :: rest).map companyNameKey).toFinset \ sn.toFinset =
              insert (companyNameKey c)
                ((rest.map companyNameKey).toFinset \ sn.toFinset) := by
            simp only [List.map_cons, List.toFinset_cons]
            exact Finset.insert_sdiff_of_not_mem _ hkey
          rw [hins]
          set X := (rest.map companyNameKey).toFinset \ sn.toFinset with hX
          by_cases hmem : companyNameKey c ∈ X
          · have h3 : (X.erase (companyNameKey c)).card = X.card - 1 :=
              Finset.card_erase_of_mem hmem
            have h4 : (insert (companyNameKey c) X).card = X.card := by
              rw [Finset.insert_eq_self.mpr hmem]
            have h5 : 1 ≤ X.card := Finset.card_pos.mpr ⟨_, hmem⟩
            omega
          · have h3 : (X.erase (companyNameKey c)).card = X.card := by
              rw [Finset.erase_eq_of_not_mem hmem]
            have h4 : (insert (companyNameKey c) X).card = X.card + 1 :=
              Finset.card_insert_of_not_mem hmem
            omega

/-- The job cleaning loop emits at most one record per distinct unseen job key. -/
theorem clean_jobs_go_card :
    ∀ (js : List Job) (seen : List PyStr),
      (DataCleaner.clean_jobs_go js seen).length ≤
        ((js.map jobKey).toFinset \ seen.toFinset).card := by
  intro js
  induction js with
  | nil => intro sn; simp [DataCleaner.clean_jobs_go]
  | cons j rest ih =>
    intro sn
    have hmono : ((rest.map jobKey).toFinset \ sn.toFinset).card ≤
        (((j :: rest).map jobKey).toFinset \ sn.toFinset).card := by
      apply Finset.card_le_card
      apply Finset.sdiff_subset_sdiff _ Finset.Subset.rfl
      simp only [List.map_cons, List.toFinset_cons]
      exact Finset.subset_insert _ _
    by_cases h1 : jobKey j ∈ sn
    · simp only [DataCleaner.clean_jobs_go, if_pos h1]
      exact (ih sn).trans hmono
    · simp only [DataCleaner.clean_jobs_go, if_neg h1]
      cases hc : DataCleaner.clean_job j with
      | none => exact (ih sn).trans hmono
      | some cj =>
        simp only [List.length_cons]
        have hIH := ih (jobKey j :: sn)
        have hrw : (rest.map jobKey).toFinset \ (jobKey j :: sn).toFinset =
            ((rest.map jobKey).toFinset \ sn.toFinset).erase (jobKey j) := by
          simp only [List.toFinset_cons, Finset.sdiff_insert]
        rw [hrw] at hIH
        have hkey : jobKey j ∉ sn.toFinset := by simpa using h1
        have hins : ((j :: rest).map jobKey).toFinset \ sn.toFinset =
            insert (jobKey j) ((rest.map jobKey).toFinset \ sn.toFinset) := by
          simp only [List.map_cons, List.toFinset_cons]
          exact Finset.insert_sdiff_of_not_mem _ hkey
        rw [hins]
        set X := (rest.map jobKey).toFinset \ sn.toFinset with hX
        by_cases hmem : jobKey j ∈ X
        · have h3 : (X.erase (jobKey j)).card = X.card - 1 :=
            Finset.card_erase_of_mem hmem
          have h4 : (insert (jobKey j) X).card = X.card := by
            rw [Finset.insert_eq_self.mpr hmem]
          have h5 : 1 ≤ X.card := Finset.card_pos.mpr ⟨_, hmem⟩
          omega
        · have h3 : (X.erase (jobKey j)).card = X.card := by
            rw [Finset.erase_eq_of_not_mem hmem]
          have h4 : (insert (jobKey j) X).card = X.card + 1 :=
            Finset.card_insert_of_not_mem hmem
          omega

/-- C3, amended: deduplication is keyed on the *pre-cleaning* records — the
lower-cased trimmed input name (for jobs: the input `company:title` key), with the
input profile URL as secondary key — so within one pass `clean_companies` returns at
most one record per distinct input name key and `clean_jobs` at most one per
distinct input job key; in particular, for two inputs with identical lower-cased
names (identical lower-cased company and title for jobs), the output is exactly the
cleaning of the first when it succeeds, otherwise the cleaning of the second (so
exactly one record whenever at least one of the two cleans successfully).
The returned records themselves can still collide on their *cleaned* keys, as the
counterexample shows. -/
theorem C3_dedup_by_input_key :
    (∀ c1 c2 : Company, pyLower c1.name = pyLower c2.name →
      DataCleaner.clean_companies [c1, c2] =
        (match DataCleaner.clean_company c1 with
         | some cc => [cc]
         | none => (DataCleaner.clean_company c2).toList)) ∧
    (∀ j1 j2 : Job, pyLower j1.company_name = pyLower j2.company_name →
      pyLower j1.title = pyLower j2.title →
      DataCleaner.clean_jobs [j1, j2] =
        (match DataCleaner.clean_job j1 with
         | some cj => [cj]
         | none => (DataCleaner.clean_job j2).toList)) ∧
    (∀ cs : List Company, (DataCleaner.clean_companies cs).length ≤
        ((cs.map companyNameKey).toFinset).card) ∧
    (∀ js : List Job, (DataCleaner.clean_jobs js).length ≤
        ((js.map jobKey).toFinset).card) := by
  refine ⟨fun c1 c2 h => ?_, fun j1 j2 h1 h2 => ?_, fun cs => ?_, fun js => ?_⟩
  · have hkey : companyNameKey c2 = companyNameKey c1 := by
      unfold companyNameKey
      rw [h]
    rcases hu1 : c1.yc_profile_url with _ | u1 <;>
      cases hcc : DataCleaner.clean_company c1 <;>
        rcases hu2 : c2.yc_profile_url with _ | u2 <;>
          cases hc2 : DataCleaner.clean_company c2 <;>
            simp [DataCleaner.clean_companies, DataCleaner.clean_companies_go,
              hu1, hu2, hkey, hcc, hc2]
  · have hkey : jobKey j2 = jobKey j1 := by
      unfold jobKey
      rw [h1, h2]
    cases hcj : DataCleaner.clean_job j1 <;>
      cases hc2 : DataCleaner.clean_job j2 <;>
        simp [DataCleaner.clean_jobs, DataCleaner.clean_jobs_go, hkey, hcj, hc2]
  · simpa using clean_companies_go_card cs [] []
  · simpa using clean_jobs_go_card js []

/-- C3, witness: the amended theorem applied to concrete same-key pairs. -/
theorem C3_witness :
    DataCleaner.clean_companies
        [{ name := "Acme Labs".toList }, { name := "acme labs".toList }] =
      (match DataCleaner.clean_company { name := "Acme Labs".toList } with
       | some cc => [cc]
       | none => (DataCleaner.clean_company
          ({ name := "acme labs".toList } : Company)).toList) ∧
    DataCleaner.clean_jobs
        [{ title := "Dev".toList, company_name := "Acme".toList },
         { title := "DEV".toList, company_name := "ACME".toList }] =
      (match DataCleaner.clean_job
          { title := "Dev".toList, company_name := "Acme".toList } with
       | some cj => [cj]
       | none => (DataCleaner.clean_job
          ({ title := "DEV".toList, company_name := "ACME".toList } : Job)).toList) :=
  ⟨C3_dedup_by_input_key.1 _ _ (by decide),
   C3_dedup_by_input_key.2.1 _ _ (by decide) (by decide)⟩

/-! ## C2 — scroll controller early stop -/

/-- Identical content is never "significant new content" (`len(new) <= len(old)`). -/
theorem has_sig_self (s : PyStr) (t : Nat) :
    PaginationHandler.has_significant_new_content s s t = false := by
  simp [PaginationHandler.has_significant_new_content]

/-- Under a constant fetch sequence the loop always returns the common content. -/
theorem scroll_go_const_res (fetch : Nat → PyStr) (N t : Nat)
    (hsame : ∀ i, 1 ≤ i → fetch i = fetch 0) :
    ∀ fuel i c, 1 ≤ i →
      (PaginationHandler.scroll_go fetch N t i fuel (fetch 0) c (fetch 0)).2 =
        fetch 0 := by
  intro fuel
  have ht : ¬ ((t : Int) < 0) := by omega
  induction fuel with
  | zero => intro i c hi; rfl
  | succ n ih =>
    intro i c hi
    have ih1 : ∀ c', (PaginationHandler.scroll_go fetch N t (i + 1) n (fetch 0) c'
        (fetch 0)).2 = fetch 0 := fun c' => ih (i + 1) c' (by omega)
    by_cases hmod : i % N = 0
    · by_cases hbrk : 4 ≤ c + 2
      · simp [PaginationHandler.scroll_go, hsame i hi, PaginationHandler.scroll_phase1,
          hmod, hbrk, has_sig_self, ht]
      · by_cases h5 : 5 < i
        · by_cases h6 : 6 ≤ c + 2 + 2
          · simp [PaginationHandler.scroll_go, hsame i hi,
              PaginationHandler.scroll_phase1, hmod, hbrk, has_sig_self, ht, h5, h6]
          · simp [PaginationHandler.scroll_go, hsame i hi,
              PaginationHandler.scroll_phase1, hmod, hbrk, has_sig_self, ht, h5, h6, ih1]
        · simp [PaginationHandler.scroll_go, hsame i hi,
            PaginationHandler.scroll_phase1, hmod, hbrk, has_sig_self, ht, h5, ih1]
    · by_cases h5 : 5 < i
      · by_cases h6 : 6 ≤ c + 1 + 2
        · simp [PaginationHandler.scroll_go, hsame i hi,
            PaginationHandler.scroll_phase1, hmod, has_sig_self, ht, h5, h6]
        · simp [PaginationHandler.scroll_go, hsame i hi,
            PaginationHandler.scroll_phase1, hmod, has_sig_self, ht, h5, h6, ih1]
      · simp [PaginationHandler.scroll_go, hsame i hi,
          PaginationHandler.scroll_phase1, hmod, has_sig_self, ht, h5, ih1]

/-- Under a constant fetch sequence the loop executes at most `max 1 (7 - i)`
further iterations from scroll number `i`, given the invariant `i ≤ c + 1`
(the counter, in half-units, grows by at least 1 every iteration). -/
theorem scroll_go_const_count (fetch : Nat → PyStr) (N t : Nat)
    (hsame : ∀ i, 1 ≤ i → fetch i = fetch 0) :
    ∀ fuel i c (res : PyStr), 1 ≤ i → i ≤ c + 1 →
      (PaginationHandler.scroll_go fetch N t i fuel (fetch 0) c res).1 ≤
        max 1 (7 - i) := by
  intro fuel
  have ht : ¬ ((t : Int) < 0) := by omega
  induction fuel with
  | zero => intro i c res hi hinv; simp [PaginationHandler.scroll_go]
  | succ n ih =>
    intro i c res hi hinv
    by_cases hmod : i % N = 0
    · by_cases hbrk : 4 ≤ c + 2
      · simp only [PaginationHandler.scroll_go, hsame i hi,
          PaginationHandler.scroll_phase1, hmod, hbrk, has_sig_self, ht]
        simp
      · have hc1 : c ≤ 1 := by omega
        have h5 : ¬ (5 < i) := by omega
        have hIH := ih (i + 1) (c + 2) (fetch 0) (by omega) (by omega)
        simp only [PaginationHandler.scroll_go, hsame i hi,
          PaginationHandler.scroll_phase1, hmod, hbrk, has_sig_self, ht, h5]
        simp only [Bool.false_eq_true, if_false, if_true, sub_self]
        simp [h5, hbrk]
        omega
    · by_cases h5 : 5 < i
      · have h6 : 6 ≤ c + 1 + 2 := by omega
        simp only [PaginationHandler.scroll_go, hsame i hi,
          PaginationHandler.scroll_phase1, hmod, has_sig_self, ht, h5, h6]
        simp [hmod, h5, ht, h6]
      · have hIH := ih (i + 1) (c + 1) (fetch 0) (by omega) (by omega)
        simp only [PaginationHandler.scroll_go, hsame i hi,
          PaginationHandler.scroll_phase1, hmod, has_sig_self, ht, h5]
        simp [hmod, h5, ht]
        omega

/-- Constant content, `content_check_interval = 1`: the loop stops by iteration 2. -/
theorem scroll_go_count_one (fetch : Nat → PyStr) (t : Nat)
    (hsame : ∀ i, 1 ≤ i → fetch i = fetch 0) :
    ∀ fuel (res : PyStr),
      (PaginationHandler.scroll_go fetch 1 t 1 fuel (fetch 0) 0 res).1 ≤ 2 := by
  have ht : ¬ ((t : Int) < 0) := by omega
  have hs1 : fetch 1 = fetch 0 := hsame 1 (by omega)
  have hs2 : fetch 2 = fetch 0 := hsame 2 (by omega)
  intro fuel res
  match fuel with
  | 0 => simp [PaginationHandler.scroll_go]
  | 1 =>
    simp [PaginationHandler.scroll_go, PaginationHandler.scroll_phase1, hs1,
      has_sig_self, ht]
  | (n + 2) =>
    simp [PaginationHandler.scroll_go, PaginationHandler.scroll_phase1, hs1, hs2,
      has_sig_self, ht]

/-- Constant content, `content_check_interval = 2`: the loop stops by iteration 4. -/
theorem scroll_go_count_two (fetch : Nat → PyStr) (t : Nat)
    (hsame : ∀ i, 1 ≤ i → fetch i = fetch 0) :
    ∀ fuel (res : PyStr),
      (PaginationHandler.scroll_go fetch 2 t 1 fuel (fetch 0) 0 res).1 ≤ 4 := by
  have ht : ¬ ((t : Int) < 0) := by omega
  have hs1 : fetch 1 = fetch 0 := hsame 1 (by omega)
  have hs2 : fetch 2 = fetch 0 := hsame 2 (by omega)
  have hs3 : fetch 3 = fetch 0 := hsame 3 (by omega)
  have hs4 : fetch 4 = fetch 0 := hsame 4 (by omega)
  intro fuel res
  match fuel with
  | 0 => simp [PaginationHandler.scroll_go]
  | 1 =>
    simp [PaginationHandler.scroll_go, PaginationHandler.scroll_phase1, hs1,
      has_sig_self, ht]
  | 2 =>
    simp [PaginationHandler.scroll_go, PaginationHandler.scroll_phase1, hs1, hs2,
      has_sig_self, ht]
  | 3 =>
    simp [PaginationHandler.scroll_go, PaginationHandler.scroll_phase1, hs1, hs2, hs3,
      has_sig_self, ht]
  | (n + 4) =>
    simp [PaginationHandler.scroll_go, PaginationHandler.scroll_phase1, hs1, hs2, hs3,
      hs4, has_sig_self, ht]

/-- Constant content, `content_check_interval = 3`: the loop stops by iteration 3. -/
theorem scroll_go_count_three (fetch : Nat → PyStr) (t : Nat)
    (hsame : ∀ i, 1 ≤ i → fetch i = fetch 0) :
    ∀ fuel (res : PyStr),
      (PaginationHandler.scroll_go fetch 3 t 1 fuel (fetch 0) 0 res).1 ≤ 3 := by
  have ht : ¬ ((t : Int) < 0) := by omega
  have hs1 : fetch 1 = fetch 0 := hsame 1 (by omega)
  have hs2 : fetch 2 = fetch 0 := hsame 2 (by omega)
  have hs3 : fetch 3 = fetch 0 := hsame 3 (by omega)
  intro fuel res
  match fuel with
  | 0 => simp [PaginationHandler.scroll_go]
  | 1 =>
    simp [PaginationHandler.scroll_go, PaginationHandler.scroll_phase1, hs1,
      has_sig_self, ht]
  | 2 =>
    simp [PaginationHandler.scroll_go, PaginationHandler.scroll_phase1, hs1, hs2,
      has_sig_self, ht]
  | (n + 3) =>
    simp [PaginationHandler.scroll_go, PaginationHandler.scroll_phase1, hs1, hs2, hs3,
      has_sig_self, ht]

/-- C2: when every fetch after the initial one returns content identical to the
(non-empty) initial content, `scrape_with_infinite_scroll` executes at most
`content_check_interval + 2` scroll iterations — in particular fewer than
`max_scrolls` whenever `max_scrolls > content_check_interval + 2` — and still
returns the content of the last fetch performed (the common content). -/
theorem C2_scroll_early_stop (fetch : Nat → PyStr) (max_scrolls N t : Nat)
    (hN : 1 ≤ N) (h0 : fetch 0 ≠ [])
    (hsame : ∀ i, 1 ≤ i → fetch i = fetch 0) :
    (PaginationHandler.scrape_with_infinite_scroll fetch max_scrolls N t).1 ≤ N + 2 ∧
    (N + 2 < max_scrolls →
      (PaginationHandler.scrape_with_infinite_scroll fetch max_scrolls N t).1 <
        max_scrolls) ∧
    (PaginationHandler.scrape_with_infinite_scroll fetch max_scrolls N t).2 =
      fetch 0 := by
  have hlen : ¬ ((fetch 0).length = 0) := by
    simpa [List.length_eq_zero] using h0
  have hcount :
      (PaginationHandler.scrape_with_infinite_scroll fetch max_scrolls N t).1 ≤
        N + 2 := by
    unfold PaginationHandler.scrape_with_infinite_scroll
    rw [if_neg hlen]
    match N, hN with
    | 1, _ =>
      exact (scroll_go_count_one fetch t hsame max_scrolls (fetch 0)).trans (by omega)
    | 2, _ =>
      exact (scroll_go_count_two fetch t hsame max_scrolls (fetch 0)).trans (by omega)
    | 3, _ =>
      exact (scroll_go_count_three fetch t hsame max_scrolls (fetch 0)).trans (by omega)
    | (n + 4), _ =>
      have hb := scroll_go_const_count fetch (n + 4) t hsame max_scrolls 1 0 (fetch 0)
        (by omega) (by omega)
      have : max 1 (7 - 1) ≤ n + 4 + 2 := by omega
      exact hb.trans this
  refine ⟨hcount, fun h => by omega, ?_⟩
  unfold PaginationHandler.scrape_with_infinite_scroll
  rw [if_neg hlen]
  exact scroll_go_const_res fetch N t hsame max_scrolls 1 0 (by omega)

/-- C2, witness: a constant fetch sequence with the source's default
`content_check_interval = 3` and `max_scrolls = 15`. -/
theorem C2_witness :
    (PaginationHandler.scrape_with_infinite_scroll
      (fun _ => "jobs at startups".toList) 15 3 100).1 ≤ 3 + 2 ∧
    (3 + 2 < 15 →
      (PaginationHandler.scrape_with_infinite_scroll
        (fun _ => "jobs at startups".toList) 15 3 100).1 < 15) ∧
    (PaginationHandler.scrape_with_infinite_scroll
      (fun _ => "jobs at startups".toList) 15 3 100).2 =
      (fun _ : Nat => "jobs at startups".toList) 0 :=
  C2_scroll_early_stop (fun _ => "jobs at startups".toList) 15 3 100 (by omega)
    (by decide) (fun i _ => rfl)
